import Mathlib

/-!
Verification development for the CAVE simulator repository (CSE190Project3).

The file shallowly embeds the parts of the code that the specification's
claims are about:

* `SimScene::getProjection` (Minimal/main.cpp, lines 886-910): the off-axis
  (asymmetric-frustum) projection solver, embedded over the reals
  (`CaveSim.Vec3`, `CaveSim.getProjection`).
* the per-eye pose-resolution state machine of `RiftApp::draw`
  (main.cpp, lines 577-598) and `SimApp::offscreenRender` (lines 1026-1044),
  embedded as explicit state passing over exact rational coordinates
  (`CaveSim.eyePoseStep`, `CaveSim.drawEye`).
* the occlusion-challenge selection logic of `SimScene::preRender`
  (lines 803-869) and the button handling of `SimApp::update`
  (lines 995-998) (`CaveSim.faceDrawn`, `CaveSim.occPreRenderStep`).
* the sequence of graphics calls a per-eye frame issues
  (`CaveSim.eyeTrace`).
* `Cave::loadPPM` (Minimal/Cave.cpp, lines 192-243) (`CaveSim.loadPPM`).

Floating-point arithmetic in the source is modelled by exact real (for the
projection geometry) or rational (for the copied-around pose data) numbers.
-/

namespace CaveSim

/-! ## Vectors and matrices (glm types used by `SimScene::getProjection`) -/

/-- Embedding of `glm::vec3` with exact real components. -/
@[ext]
structure Vec3 where
  x : ℝ
  y : ℝ
  z : ℝ

/-- The zero vector. -/
def zeroV : Vec3 := ⟨0, 0, 0⟩

/-- Componentwise sum (`glm` operator `+`). -/
def vadd (a b : Vec3) : Vec3 := ⟨a.x + b.x, a.y + b.y, a.z + b.z⟩

/-- Componentwise difference (`glm` operator `-`). -/
def vsub (a b : Vec3) : Vec3 := ⟨a.x - b.x, a.y - b.y, a.z - b.z⟩

/-- Componentwise negation (`glm` unary `-`). -/
def vneg (a : Vec3) : Vec3 := ⟨-a.x, -a.y, -a.z⟩

/-- Scalar multiple. -/
def vsmul (s : ℝ) (a : Vec3) : Vec3 := ⟨s * a.x, s * a.y, s * a.z⟩

/-- Embedding of `glm::dot`. -/
def dotV (a b : Vec3) : ℝ := a.x * b.x + a.y * b.y + a.z * b.z

/-- Embedding of `glm::cross`. -/
def crossV (a b : Vec3) : Vec3 :=
  ⟨a.y * b.z - a.z * b.y, a.z * b.x - a.x * b.z, a.x * b.y - a.y * b.x⟩

/-- Embedding of `glm::normalize`: the vector scaled by the inverse of its
Euclidean magnitude. -/
noncomputable def normalizeV (a : Vec3) : Vec3 :=
  vsmul (Real.sqrt (dotV a a))⁻¹ a

/-- Euclidean magnitude (`glm::length`). -/
noncomputable def magV (a : Vec3) : ℝ := Real.sqrt (dotV a a)

/-- 4x4 real matrices standing for `glm::mat4` (entries indexed
row-then-column; `glm`'s column-major constructor arguments are transcribed
accordingly). -/
abbrev Mat4 := Matrix (Fin 4) (Fin 4) ℝ

/-- Embedding of `glm::frustum(l, r, b, t, n, f)`: the standard OpenGL
asymmetric-frustum perspective matrix (clip range -1..1). -/
noncomputable def frustumMat (l r b t n f : ℝ) : Mat4 :=
  !![2 * n / (r - l), 0, (r + l) / (r - l), 0;
     0, 2 * n / (t - b), (t + b) / (t - b), 0;
     0, 0, -(f + n) / (f - n), -(2 * f * n) / (f - n);
     0, 0, -1, 0]

/-- The matrix the source first assigns to the local `P` of
`SimScene::getProjection` (main.cpp lines 899-902), written there with
`glm`'s column-major constructor; it is immediately overwritten by
`glm::frustum(l, r, b, t, n, f)` on line 903.  We keep it and prove below
that the overwrite is value-preserving. -/
noncomputable def handFrustumMat (l r b t n f : ℝ) : Mat4 :=
  !![2 * n / (r - l), 0, (r + l) / (r - l), 0;
     0, 2 * n / (t - b), (t + b) / (t - b), 0;
     0, 0, -(f + n) / (f - n), -2 * f * n / (f - n);
     0, 0, -1, 0]

/-- The dead-store initializer of `P` equals the `glm::frustum` matrix that
overwrites it. -/
theorem handFrustumMat_eq (l r b t n f : ℝ) :
    handFrustumMat l r b t n f = frustumMat l r b t n f := by
  unfold handFrustumMat frustumMat
  norm_num

/-- The basis matrix `M` of `SimScene::getProjection` (main.cpp lines
904-907): columns `vr`, `vu`, `vn` and a trailing homogeneous column. -/
def basisMat (vr vu vn : Vec3) : Mat4 :=
  !![vr.x, vu.x, vn.x, 0;
     vr.y, vu.y, vn.y, 0;
     vr.z, vu.z, vn.z, 0;
     0, 0, 0, 1]

/-- Embedding of `glm::translate(v)`: translation by `v`. -/
def translateMat (v : Vec3) : Mat4 :=
  !![1, 0, 0, v.x;
     0, 1, 0, v.y;
     0, 0, 1, v.z;
     0, 0, 0, 1]

/-! ## `SimScene::getProjection` (main.cpp lines 886-910)

The locals `vr, vu, vn, va, vb, vc, d, l, r, b, t` of the source function
are lifted to top-level definitions so that the claims can speak about
them; `getProjection` composes them exactly as the source does. -/

/-- `vr = glm::normalize(pb - pa)` (main.cpp line 887). -/
noncomputable def vrOf (pa pb : Vec3) : Vec3 := normalizeV (vsub pb pa)

/-- `vu = glm::normalize(pc - pa)` (main.cpp line 888). -/
noncomputable def vuOf (pa pc : Vec3) : Vec3 := normalizeV (vsub pc pa)

/-- `vn = glm::normalize(glm::cross(vr, vu))` (main.cpp line 889). -/
noncomputable def vnOf (pa pb pc : Vec3) : Vec3 :=
  normalizeV (crossV (vrOf pa pb) (vuOf pa pc))

/-- `va = pa - eyePos` (main.cpp line 890). -/
def vaOf (eyePos pa : Vec3) : Vec3 := vsub pa eyePos

/-- `vb = pb - eyePos` (main.cpp line 891). -/
def vbOf (eyePos pb : Vec3) : Vec3 := vsub pb eyePos

/-- `vc = pc - eyePos` (main.cpp line 892). -/
def vcOf (eyePos pc : Vec3) : Vec3 := vsub pc eyePos

/-- `d = -glm::dot(vn, va)` (main.cpp line 893). -/
noncomputable def dOf (eyePos pa pb pc : Vec3) : ℝ :=
  -(dotV (vnOf pa pb pc) (vaOf eyePos pa))

/-- `l = glm::dot(vr, va) * n / d` (main.cpp line 894). -/
noncomputable def lOf (eyePos pa pb pc : Vec3) (n : ℝ) : ℝ :=
  dotV (vrOf pa pb) (vaOf eyePos pa) * n / dOf eyePos pa pb pc

/-- `r = glm::dot(vr, vb) * n / d` (main.cpp line 895). -/
noncomputable def rOf (eyePos pa pb pc : Vec3) (n : ℝ) : ℝ :=
  dotV (vrOf pa pb) (vbOf eyePos pb) * n / dOf eyePos pa pb pc

/-- `b = glm::dot(vu, va) * n / d` (main.cpp line 896). -/
noncomputable def bOf (eyePos pa pb pc : Vec3) (n : ℝ) : ℝ :=
  dotV (vuOf pa pc) (vaOf eyePos pa) * n / dOf eyePos pa pb pc

/-- `t = glm::dot(vu, vc) * n / d` (main.cpp line 897). -/
noncomputable def tOf (eyePos pa pb pc : Vec3) (n : ℝ) : ℝ :=
  dotV (vuOf pa pc) (vcOf eyePos pc) * n / dOf eyePos pa pb pc

/-- Embedding of `SimScene::getProjection(eyePos, pa, pb, pc, n, f)`
(main.cpp lines 886-910): returns `P * transpose(M) * T` with
`P = glm::frustum(l, r, b, t, n, f)`, `M` the basis matrix of
`{vr, vu, vn}` and `T = glm::translate(-eyePos)`. -/
noncomputable def getProjection (eyePos pa pb pc : Vec3) (n f : ℝ) : Mat4 :=
  frustumMat (lOf eyePos pa pb pc n) (rOf eyePos pa pb pc n)
      (bOf eyePos pa pb pc n) (tOf eyePos pa pb pc n) n f *
    (basisMat (vrOf pa pb) (vuOf pa pc) (vnOf pa pb pc)).transpose *
    translateMat (vneg eyePos)

/-! ## Algebraic facts about the basis construction -/

/-- A dot product of a vector with itself is nonnegative. -/
theorem dotV_self_nonneg (v : Vec3) : 0 ≤ dotV v v := by
  unfold dotV
  nlinarith [mul_self_nonneg v.x, mul_self_nonneg v.y, mul_self_nonneg v.z]

/-- A nonzero vector has positive dot product with itself. -/
theorem dotV_self_pos (v : Vec3) (hv : v ≠ zeroV) : 0 < dotV v v := by
  rcases lt_or_eq_of_le (dotV_self_nonneg v) with h | h
  · exact h
  · exfalso
    apply hv
    unfold dotV at h
    have hx : v.x = 0 := by nlinarith [mul_self_nonneg v.x, mul_self_nonneg v.y, mul_self_nonneg v.z]
    have hy : v.y = 0 := by nlinarith [mul_self_nonneg v.x, mul_self_nonneg v.y, mul_self_nonneg v.z]
    have hz : v.z = 0 := by nlinarith [mul_self_nonneg v.x, mul_self_nonneg v.y, mul_self_nonneg v.z]
    unfold zeroV
    exact Vec3.ext hx hy hz

/-- Bilinearity of the dot product under scaling on both sides. -/
theorem dotV_smul_smul (a b : ℝ) (u v : Vec3) :
    dotV (vsmul a u) (vsmul b v) = a * b * dotV u v := by
  unfold dotV vsmul
  ring

/-- Scaling on the left side of the dot product. -/
theorem dotV_smul_left (a : ℝ) (u v : Vec3) :
    dotV (vsmul a u) v = a * dotV u v := by
  unfold dotV vsmul
  ring

/-- A normalized nonzero vector has unit dot product with itself. -/
theorem dotV_normalize_self (v : Vec3) (hv : v ≠ zeroV) :
    dotV (normalizeV v) (normalizeV v) = 1 := by
  have hpos := dotV_self_pos v hv
  unfold normalizeV
  rw [dotV_smul_smul]
  rw [← mul_inv]
  rw [Real.mul_self_sqrt (le_of_lt hpos)]
  exact inv_mul_cancel₀ (ne_of_gt hpos)

/-- Normalizing preserves orthogonality. -/
theorem dotV_normalize_eq_zero (u v : Vec3) (h : dotV u v = 0) :
    dotV (normalizeV u) (normalizeV v) = 0 := by
  unfold normalizeV
  rw [dotV_smul_smul, h, mul_zero]

/-- The cross product is orthogonal to its first factor. -/
theorem dotV_cross_left (u v : Vec3) : dotV (crossV u v) u = 0 := by
  unfold dotV crossV
  ring

/-- The cross product is orthogonal to its second factor. -/
theorem dotV_cross_right (u v : Vec3) : dotV (crossV u v) v = 0 := by
  unfold dotV crossV
  ring

/-- The Lagrange identity for the squared magnitude of a cross product. -/
theorem dotV_cross_self (u v : Vec3) :
    dotV (crossV u v) (crossV u v) = dotV u u * dotV v v - dotV u v * dotV u v := by
  unfold dotV crossV
  ring

/-- The dot product is symmetric. -/
theorem dotV_comm (u v : Vec3) : dotV u v = dotV v u := by
  unfold dotV
  ring

/-- The zero vector is orthogonal to itself. -/
theorem dotV_zeroV : dotV zeroV zeroV = 0 := by
  unfold dotV zeroV
  norm_num

/-- C2: for corners forming a right angle at `pa` (nondegenerate legs,
perpendicular legs), the basis vectors `vr`, `vu`, `vn` computed inside
`SimScene::getProjection` are mutually orthonormal: each has magnitude
exactly 1 and all pairwise dot products are exactly 0 (which in particular
is within the spec's 1e-5 tolerance).  The basis does not depend on the
eye position, so the conclusion holds for every eye position `e`. -/
theorem getProjection_basis_orthonormal (pa pb pc : Vec3)
    (hb : vsub pb pa ≠ zeroV) (hc : vsub pc pa ≠ zeroV)
    (hright : dotV (vsub pb pa) (vsub pc pa) = 0) :
    magV (vrOf pa pb) = 1 ∧ magV (vuOf pa pc) = 1 ∧ magV (vnOf pa pb pc) = 1 ∧
    dotV (vrOf pa pb) (vuOf pa pc) = 0 ∧
    dotV (vrOf pa pb) (vnOf pa pb pc) = 0 ∧
    dotV (vuOf pa pc) (vnOf pa pb pc) = 0 := by
  have hvr : dotV (vrOf pa pb) (vrOf pa pb) = 1 := dotV_normalize_self _ hb
  have hvu : dotV (vuOf pa pc) (vuOf pa pc) = 1 := dotV_normalize_self _ hc
  have hru : dotV (vrOf pa pb) (vuOf pa pc) = 0 := dotV_normalize_eq_zero _ _ hright
  have hww : dotV (crossV (vrOf pa pb) (vuOf pa pc)) (crossV (vrOf pa pb) (vuOf pa pc)) = 1 := by
    rw [dotV_cross_self, hvr, hvu, hru]
    norm_num
  have hwz : crossV (vrOf pa pb) (vuOf pa pc) ≠ zeroV := by
    intro h
    rw [h, dotV_zeroV] at hww
    norm_num at hww
  have hvn : dotV (vnOf pa pb pc) (vnOf pa pb pc) = 1 := dotV_normalize_self _ hwz
  refine ⟨?_, ?_, ?_, hru, ?_, ?_⟩
  · unfold magV
    rw [hvr, Real.sqrt_one]
  · unfold magV
    rw [hvu, Real.sqrt_one]
  · unfold magV
    rw [hvn, Real.sqrt_one]
  · rw [dotV_comm]
    unfold vnOf normalizeV
    rw [dotV_smul_left, dotV_cross_left, mul_zero]
  · rw [dotV_comm]
    unfold vnOf normalizeV
    rw [dotV_smul_left, dotV_cross_right, mul_zero]

/-- Witness for C2 at the concrete face corners pa = (0,0,0), pb = (1,0,0),
pc = (0,1,0). -/
theorem getProjection_basis_orthonormal_witness :
    magV (vrOf ⟨0, 0, 0⟩ ⟨1, 0, 0⟩) = 1 ∧ magV (vuOf ⟨0, 0, 0⟩ ⟨0, 1, 0⟩) = 1 ∧
    magV (vnOf ⟨0, 0, 0⟩ ⟨1, 0, 0⟩ ⟨0, 1, 0⟩) = 1 ∧
    dotV (vrOf ⟨0, 0, 0⟩ ⟨1, 0, 0⟩) (vuOf ⟨0, 0, 0⟩ ⟨0, 1, 0⟩) = 0 ∧
    dotV (vrOf ⟨0, 0, 0⟩ ⟨1, 0, 0⟩) (vnOf ⟨0, 0, 0⟩ ⟨1, 0, 0⟩ ⟨0, 1, 0⟩) = 0 ∧
    dotV (vuOf ⟨0, 0, 0⟩ ⟨0, 1, 0⟩) (vnOf ⟨0, 0, 0⟩ ⟨1, 0, 0⟩ ⟨0, 1, 0⟩) = 0 :=
  getProjection_basis_orthonormal ⟨0, 0, 0⟩ ⟨1, 0, 0⟩ ⟨0, 1, 0⟩
    (by
      intro h
      have hx := congrArg Vec3.x h
      simp [vsub, zeroV] at hx)
    (by
      intro h
      have hy := congrArg Vec3.y h
      simp [vsub, zeroV] at hy)
    (by
      unfold dotV vsub
      norm_num)

/-- The projection described by the specification, written from the spec's
words for comparison with the source's `getProjection`: with `vr, vu, vn`
the normalized plane basis, `va = pa - e`, `vb = pb - e`, `vc = pc - e`,
`d = -dot(vn, va)`, frustum bounds `l = dot(vr,va)*n/d`,
`r = dot(vr,vb)*n/d`, `b = dot(vu,va)*n/d`, `t = dot(vu,vc)*n/d`, it is the
product `P * transpose(M) * T` of the standard asymmetric-frustum
perspective matrix `P` built from `(l,r,b,t,n,f)`, the transpose of the
basis matrix `M` of `{vr, vu, vn}`, and the translation `T` by `-e`. -/
noncomputable def specProjection (e pa pb pc : Vec3) (n f : ℝ) : Mat4 :=
  let vr := normalizeV (vsub pb pa)
  let vu := normalizeV (vsub pc pa)
  let vn := normalizeV (crossV vr vu)
  let va := vsub pa e
  let vb := vsub pb e
  let vc := vsub pc e
  let d := -(dotV vn va)
  let l := dotV vr va * n / d
  let r := dotV vr vb * n / d
  let b := dotV vu va * n / d
  let t := dotV vu vc * n / d
  frustumMat l r b t n f * (basisMat vr vu vn).transpose * translateMat (vneg e)

/-- C1: for corners forming a right angle at `pa` (nondegenerate,
perpendicular legs), an eye strictly in front of the face plane and
`0 < n < f`, `getProjection(e, pa, pb, pc, n, f)` returns exactly the
product `P * transpose(M) * T` described by the specification
(`specProjection`). -/
theorem getProjection_eq_specProjection (e pa pb pc : Vec3) (n f : ℝ)
    (hb : vsub pb pa ≠ zeroV) (hc : vsub pc pa ≠ zeroV)
    (hright : dotV (vsub pb pa) (vsub pc pa) = 0)
    (hfront : 0 < dOf e pa pb pc)
    (hn : 0 < n) (hnf : n < f) :
    getProjection e pa pb pc n f = specProjection e pa pb pc n f := by
  unfold getProjection specProjection lOf rOf bOf tOf dOf vrOf vuOf vnOf vaOf vbOf vcOf
  rfl

/-- Witness for C1 at the concrete input e = (0,0,1), pa = (0,0,0),
pb = (1,0,0), pc = (0,1,0), n = 1/100, f = 1000. -/
theorem getProjection_eq_specProjection_witness :
    getProjection ⟨0, 0, 1⟩ ⟨0, 0, 0⟩ ⟨1, 0, 0⟩ ⟨0, 1, 0⟩ (1 / 100) 1000 =
      specProjection ⟨0, 0, 1⟩ ⟨0, 0, 0⟩ ⟨1, 0, 0⟩ ⟨0, 1, 0⟩ (1 / 100) 1000 :=
  getProjection_eq_specProjection ⟨0, 0, 1⟩ ⟨0, 0, 0⟩ ⟨1, 0, 0⟩ ⟨0, 1, 0⟩ (1 / 100) 1000
    (by
      intro h
      have hx := congrArg Vec3.x h
      simp [vsub, zeroV] at hx)
    (by
      intro h
      have hy := congrArg Vec3.y h
      simp [vsub, zeroV] at hy)
    (by
      unfold dotV vsub
      norm_num)
    (by
      unfold dOf vnOf vrOf vuOf vaOf normalizeV crossV vsub vsmul dotV
      norm_num)
    (by norm_num)
    (by norm_num)

/-- Subtracting a sum is iterated subtraction, componentwise. -/
theorem vsub_vadd (a b c : Vec3) : vsub a (vadd b c) = vsub (vsub a b) c := by
  unfold vsub vadd
  exact Vec3.ext (by ring) (by ring) (by ring)

/-- The dot product distributes over subtraction in its second argument. -/
theorem dotV_sub_right (u a b : Vec3) :
    dotV u (vsub a b) = dotV u a - dotV u b := by
  unfold dotV vsub
  ring

/-- Shifting the numerator of a frustum bound by a common amount shifts the
bound by that amount over the common denominator. -/
theorem shift_bound (A c n d : ℝ) :
    (A - c) * n / d - A * n / d = -(c * n) / d := by
  rw [div_sub_div_same]
  congr 1
  ring

/-- C7: for a valid face (right angle at `pa`, nondegenerate legs) and an
eye strictly in front of the plane, translating the eye by any vector `w`
parallel to the face plane (orthogonal to the plane normal `vn`) shifts the
frustum bounds `l` and `r` by equal amounts and `b` and `t` by equal
amounts, leaving the widths `r - l` and `t - b` unchanged. -/
theorem getProjection_frustum_skew (e w pa pb pc : Vec3) (n : ℝ)
    (hb : vsub pb pa ≠ zeroV) (hc : vsub pc pa ≠ zeroV)
    (hright : dotV (vsub pb pa) (vsub pc pa) = 0)
    (hfront : 0 < dOf e pa pb pc)
    (hw : dotV (vnOf pa pb pc) w = 0) :
    lOf (vadd e w) pa pb pc n - lOf e pa pb pc n =
      rOf (vadd e w) pa pb pc n - rOf e pa pb pc n ∧
    bOf (vadd e w) pa pb pc n - bOf e pa pb pc n =
      tOf (vadd e w) pa pb pc n - tOf e pa pb pc n ∧
    rOf (vadd e w) pa pb pc n - lOf (vadd e w) pa pb pc n =
      rOf e pa pb pc n - lOf e pa pb pc n ∧
    tOf (vadd e w) pa pb pc n - bOf (vadd e w) pa pb pc n =
      tOf e pa pb pc n - bOf e pa pb pc n := by
  have hd : dOf (vadd e w) pa pb pc = dOf e pa pb pc := by
    unfold dOf vaOf
    rw [vsub_vadd, dotV_sub_right, hw]
    ring
  have hl : lOf (vadd e w) pa pb pc n =
      (dotV (vrOf pa pb) (vsub pa e) - dotV (vrOf pa pb) w) * n / dOf e pa pb pc := by
    unfold lOf vaOf
    rw [hd, vsub_vadd, dotV_sub_right]
  have hr : rOf (vadd e w) pa pb pc n =
      (dotV (vrOf pa pb) (vsub pb e) - dotV (vrOf pa pb) w) * n / dOf e pa pb pc := by
    unfold rOf vbOf
    rw [hd, vsub_vadd, dotV_sub_right]
  have hbb : bOf (vadd e w) pa pb pc n =
      (dotV (vuOf pa pc) (vsub pa e) - dotV (vuOf pa pc) w) * n / dOf e pa pb pc := by
    unfold bOf vaOf
    rw [hd, vsub_vadd, dotV_sub_right]
  have ht : tOf (vadd e w) pa pb pc n =
      (dotV (vuOf pa pc) (vsub pc e) - dotV (vuOf pa pc) w) * n / dOf e pa pb pc := by
    unfold tOf vcOf
    rw [hd, vsub_vadd, dotV_sub_right]
  refine ⟨?_, ?_, ?_, ?_⟩
  · rw [hl, hr]
    unfold lOf rOf vaOf vbOf
    rw [shift_bound, shift_bound]
  · rw [hbb, ht]
    unfold bOf tOf vaOf vcOf
    rw [shift_bound, shift_bound]
  · rw [hl, hr]
    unfold lOf rOf vaOf vbOf
    rw [div_sub_div_same, div_sub_div_same]
    congr 1
    ring
  · rw [hbb, ht]
    unfold bOf tOf vaOf vcOf
    rw [div_sub_div_same, div_sub_div_same]
    congr 1
    ring

/-- Witness for C7 at e = (0,0,1), w = (2,3,0), corners pa = (0,0,0),
pb = (1,0,0), pc = (0,1,0), n = 1/100. -/
theorem getProjection_frustum_skew_witness :
    lOf (vadd ⟨0, 0, 1⟩ ⟨2, 3, 0⟩) ⟨0, 0, 0⟩ ⟨1, 0, 0⟩ ⟨0, 1, 0⟩ (1 / 100) -
        lOf ⟨0, 0, 1⟩ ⟨0, 0, 0⟩ ⟨1, 0, 0⟩ ⟨0, 1, 0⟩ (1 / 100) =
      rOf (vadd ⟨0, 0, 1⟩ ⟨2, 3, 0⟩) ⟨0, 0, 0⟩ ⟨1, 0, 0⟩ ⟨0, 1, 0⟩ (1 / 100) -
        rOf ⟨0, 0, 1⟩ ⟨0, 0, 0⟩ ⟨1, 0, 0⟩ ⟨0, 1, 0⟩ (1 / 100) ∧
    bOf (vadd ⟨0, 0, 1⟩ ⟨2, 3, 0⟩) ⟨0, 0, 0⟩ ⟨1, 0, 0⟩ ⟨0, 1, 0⟩ (1 / 100) -
        bOf ⟨0, 0, 1⟩ ⟨0, 0, 0⟩ ⟨1, 0, 0⟩ ⟨0, 1, 0⟩ (1 / 100) =
      tOf (vadd ⟨0, 0, 1⟩ ⟨2, 3, 0⟩) ⟨0, 0, 0⟩ ⟨1, 0, 0⟩ ⟨0, 1, 0⟩ (1 / 100) -
        tOf ⟨0, 0, 1⟩ ⟨0, 0, 0⟩ ⟨1, 0, 0⟩ ⟨0, 1, 0⟩ (1 / 100) ∧
    rOf (vadd ⟨0, 0, 1⟩ ⟨2, 3, 0⟩) ⟨0, 0, 0⟩ ⟨1, 0, 0⟩ ⟨0, 1, 0⟩ (1 / 100) -
        lOf (vadd ⟨0, 0, 1⟩ ⟨2, 3, 0⟩) ⟨0, 0, 0⟩ ⟨1, 0, 0⟩ ⟨0, 1, 0⟩ (1 / 100) =
      rOf ⟨0, 0, 1⟩ ⟨0, 0, 0⟩ ⟨1, 0, 0⟩ ⟨0, 1, 0⟩ (1 / 100) -
        lOf ⟨0, 0, 1⟩ ⟨0, 0, 0⟩ ⟨1, 0, 0⟩ ⟨0, 1, 0⟩ (1 / 100) ∧
    tOf (vadd ⟨0, 0, 1⟩ ⟨2, 3, 0⟩) ⟨0, 0, 0⟩ ⟨1, 0, 0⟩ ⟨0, 1, 0⟩ (1 / 100) -
        bOf (vadd ⟨0, 0, 1⟩ ⟨2, 3, 0⟩) ⟨0, 0, 0⟩ ⟨1, 0, 0⟩ ⟨0, 1, 0⟩ (1 / 100) =
      tOf ⟨0, 0, 1⟩ ⟨0, 0, 0⟩ ⟨1, 0, 0⟩ ⟨0, 1, 0⟩ (1 / 100) -
        bOf ⟨0, 0, 1⟩ ⟨0, 0, 0⟩ ⟨1, 0, 0⟩ ⟨0, 1, 0⟩ (1 / 100) :=
  getProjection_frustum_skew ⟨0, 0, 1⟩ ⟨2, 3, 0⟩ ⟨0, 0, 0⟩ ⟨1, 0, 0⟩ ⟨0, 1, 0⟩ (1 / 100)
    (by
      intro h
      have hx := congrArg Vec3.x h
      simp [vsub, zeroV] at hx)
    (by
      intro h
      have hy := congrArg Vec3.y h
      simp [vsub, zeroV] at hy)
    (by
      unfold dotV vsub
      norm_num)
    (by
      unfold dOf vnOf vrOf vuOf vaOf normalizeV crossV vsub vsmul dotV
      norm_num)
    (by
      unfold vnOf vrOf vuOf normalizeV crossV vsub vsmul dotV
      norm_num)

/-! ## Eye-pose resolution (RiftApp::draw, main.cpp lines 548-598, and
SimApp::offscreenRender, lines 1026-1044)

Pose data is produced by the tracking SDK and only copied around by this
code (the one arithmetic operation is adding the per-eye default offset to
the x coordinate), so coordinates are modelled as exact rationals. -/

/-- Embedding of `ovrQuatf` (fields x, y, z, w). -/
structure OvrQuat where
  qx : ℚ
  qy : ℚ
  qz : ℚ
  qw : ℚ
deriving DecidableEq, Repr

/-- Embedding of `ovrVector3f`. -/
structure OvrVec3 where
  px : ℚ
  py : ℚ
  pz : ℚ
deriving DecidableEq, Repr

/-- Embedding of `ovrPosef`: an orientation quaternion and a position. -/
structure OvrPose where
  Orientation : OvrQuat
  Position : OvrVec3
deriving DecidableEq, Repr

/-- The per-eye pose state of `RiftApp`: the fields `initLastEye[eye]` and
`lastEye[eye]` (main.cpp lines 548-549). -/
structure EyeState where
  initLastEye : Bool
  lastEye : OvrPose
deriving DecidableEq, Repr

/-- One eye's pose resolution inside `RiftApp::draw` (main.cpp lines
580-588): lazily initialize `lastEye` from the live tracked pose, set
`renderEye` to `lastEye`, refresh only its position from the live pose when
`getTrackingState() == 0` (LIVE), and store `renderEye` back into
`lastEye`.  Returns the updated state and the resolved `renderEye`. -/
def eyePoseStep (s : EyeState) (livePose : OvrPose) (trackingState : ℕ) :
    EyeState × OvrPose :=
  let lastEye := if s.initLastEye then s.lastEye else livePose
  let renderEye :=
    if trackingState = 0 then { lastEye with Position := livePose.Position }
    else lastEye
  (⟨true, renderEye⟩, renderEye)

/-- Iterating `eyePoseStep` over a sequence of frames, each frame providing
the live tracked pose and the tracking mode for that frame; returns the
final state and the list of resolved render poses, in frame order. -/
def eyePoseRun (s : EyeState) : List (OvrPose × ℕ) → EyeState × List OvrPose
  | [] => (s, [])
  | (livePose, trackingState) :: rest =>
    let (s', renderEye) := eyePoseStep s livePose trackingState
    let (sEnd, out) := eyePoseRun s' rest
    (sEnd, renderEye :: out)

/-- A frozen step leaves the stored pose unchanged and renders it. -/
theorem eyePoseStep_frozen (s : EyeState) (livePose : OvrPose)
    (h : s.initLastEye = true) :
    eyePoseStep s livePose 1 = (⟨true, s.lastEye⟩, s.lastEye) := by
  unfold eyePoseStep
  rw [h]
  simp

/-- C3 (amended): once the per-eye pose state is initialized, (a) while the
tracking mode is FROZEN (`getTrackingState() == 1`) every frame's offscreen
pose equals the stored pose held when freezing engaged, regardless of the
live head poses; and (b) on a LIVE frame (`getTrackingState() == 0`) the
offscreen pose is the stored pose with only its position refreshed from
the current live head pose (the stored orientation is kept). -/
theorem eyePose_frozen_holds_live_refreshes_position (s : EyeState)
    (h : s.initLastEye = true) :
    (∀ livePoses : List OvrPose, ∀ p ∈ (eyePoseRun s (livePoses.map (fun q => (q, 1)))).2,
        p = s.lastEye) ∧
    (∀ livePose : OvrPose,
        (eyePoseStep s livePose 0).2 =
          { s.lastEye with Position := livePose.Position }) := by
  constructor
  · intro livePoses
    induction livePoses generalizing s with
    | nil => intro p hp; simp [eyePoseRun] at hp
    | cons q rest ih =>
      intro p hp
      rw [List.map_cons] at hp
      unfold eyePoseRun at hp
      rw [eyePoseStep_frozen s q h] at hp
      simp only at hp
      rcases List.mem_cons.mp hp with h1 | h2
      · exact h1
      · exact ih ⟨true, s.lastEye⟩ rfl p h2
  · intro livePose
    unfold eyePoseStep
    rw [h]
    simp

/-- Witness for C3 (amended) at a concrete initialized state and two
concrete frames. -/
theorem eyePose_frozen_holds_live_refreshes_position_witness :
    (∀ p ∈ (eyePoseRun ⟨true, ⟨⟨0, 0, 0, 1⟩, ⟨1, 2, 3⟩⟩⟩
        ([⟨⟨1, 0, 0, 0⟩, ⟨4, 5, 6⟩⟩, ⟨⟨0, 1, 0, 0⟩, ⟨7, 8, 9⟩⟩].map (fun q => (q, 1)))).2,
        p = (⟨⟨0, 0, 0, 1⟩, ⟨1, 2, 3⟩⟩ : OvrPose)) ∧
    (eyePoseStep ⟨true, ⟨⟨0, 0, 0, 1⟩, ⟨1, 2, 3⟩⟩⟩ ⟨⟨1, 0, 0, 0⟩, ⟨4, 5, 6⟩⟩ 0).2 =
      ⟨⟨0, 0, 0, 1⟩, ⟨4, 5, 6⟩⟩ := by
  have h := eyePose_frozen_holds_live_refreshes_position
    ⟨true, ⟨⟨0, 0, 0, 1⟩, ⟨1, 2, 3⟩⟩⟩ rfl
  exact ⟨h.1 [⟨⟨1, 0, 0, 0⟩, ⟨4, 5, 6⟩⟩, ⟨⟨0, 1, 0, 0⟩, ⟨7, 8, 9⟩⟩],
    h.2 ⟨⟨1, 0, 0, 0⟩, ⟨4, 5, 6⟩⟩⟩

/-- C3 counterexample to the claim as stated: on a LIVE frame
(`getTrackingState() == 0`) with an initialized state whose stored
orientation differs from the live orientation, the pose used for the
offscreen pass is not the current tracked head pose: only its position is
taken from the live pose, its orientation stays the stored one. -/
theorem eyePose_live_not_whole_pose :
    (eyePoseStep ⟨true, ⟨⟨0, 0, 0, 1⟩, ⟨1, 2, 3⟩⟩⟩ ⟨⟨1, 0, 0, 0⟩, ⟨4, 5, 6⟩⟩ 0).2 ≠
      ⟨⟨1, 0, 0, 0⟩, ⟨4, 5, 6⟩⟩ := by
  decide

/-- One initialized step never changes the stored orientation, renders the
stored orientation, and stays initialized, for either tracking mode. -/
theorem eyePoseStep_orientation (s : EyeState) (p : OvrPose) (m : ℕ)
    (h : s.initLastEye = true) :
    (eyePoseStep s p m).1.lastEye.Orientation = s.lastEye.Orientation ∧
    (eyePoseStep s p m).2.Orientation = s.lastEye.Orientation ∧
    (eyePoseStep s p m).1.initLastEye = true := by
  unfold eyePoseStep
  rw [h]
  by_cases hm : m = 0 <;> simp [hm]

/-- From any initialized state, every rendered pose of a run keeps the
stored orientation. -/
theorem eyePoseRun_orientation (frames : List (OvrPose × ℕ)) :
    ∀ s : EyeState, s.initLastEye = true →
      ∀ p ∈ (eyePoseRun s frames).2, p.Orientation = s.lastEye.Orientation := by
  induction frames with
  | nil =>
    intro s _ p hp
    simp [eyePoseRun] at hp
  | cons fr rest ih =>
    intro s hs p hp
    obtain ⟨q, m⟩ := fr
    obtain ⟨h1, h2, h3⟩ := eyePoseStep_orientation s q m hs
    unfold eyePoseRun at hp
    simp only at hp
    rcases List.mem_cons.mp hp with hh | hh
    · rw [hh]
      exact h2
    · have := ih (eyePoseStep s q m).1 h3 p hh
      rw [this, h1]

/-- C10: starting from an uninitialized per-eye state, the orientation of
every pose handed to the offscreen pass, on the first frame and on every
later frame and for any mix of LIVE and FROZEN tracking modes, equals the
orientation of the live pose observed on that eye's first frame: only the
position component is ever refreshed from live tracking. -/
theorem eyePose_orientation_first_frame (q0 : OvrPose) (first : OvrPose × ℕ)
    (rest : List (OvrPose × ℕ)) :
    ∀ p ∈ (eyePoseRun ⟨false, q0⟩ (first :: rest)).2,
      p.Orientation = first.1.Orientation := by
  intro p hp
  obtain ⟨q, m⟩ := first
  have hstep := eyePoseStep_orientation ⟨true, q⟩ q m rfl
  have horient : (eyePoseStep ⟨false, q0⟩ q m) = (eyePoseStep ⟨true, q⟩ q m) := by
    unfold eyePoseStep
    simp
  unfold eyePoseRun at hp
  rw [horient] at hp
  simp only at hp
  rcases List.mem_cons.mp hp with hh | hh
  · rw [hh]
    exact hstep.2.1
  · have := eyePoseRun_orientation rest (eyePoseStep ⟨true, q⟩ q m).1 hstep.2.2 p hh
    rw [this, hstep.1]

/-- Witness for C10: in a three-frame run that starts LIVE, freezes, and
returns to LIVE with a changing live orientation, the third rendered pose
(position refreshed to the third live position) still carries the first
frame's orientation. -/
theorem eyePose_orientation_first_frame_witness :
    (OvrPose.mk ⟨0, 0, 0, 1⟩ ⟨7, 8, 9⟩).Orientation = (⟨0, 0, 0, 1⟩ : OvrQuat) :=
  eyePose_orientation_first_frame ⟨⟨9, 9, 9, 9⟩, ⟨9, 9, 9⟩⟩
    (⟨⟨0, 0, 0, 1⟩, ⟨1, 2, 3⟩⟩, 0)
    [(⟨⟨1, 0, 0, 0⟩, ⟨4, 5, 6⟩⟩, 1), (⟨⟨0, 1, 0, 0⟩, ⟨7, 8, 9⟩⟩, 0)]
    ⟨⟨0, 0, 0, 1⟩, ⟨7, 8, 9⟩⟩ (by decide)

/-- The arguments the per-eye body of `RiftApp::draw` hands to the two
passes: the eye position given to `SimScene::preRender` via
`SimApp::offscreenRender`, and the pose and eye position given to
`SimApp::renderScene` (main.cpp lines 591-598). -/
structure DrawEyeCalls where
  offscreenEyePos : OvrVec3
  compositePose : OvrPose
  compositeEyePos : OvrVec3
deriving DecidableEq, Repr

/-- The per-eye body of `RiftApp::draw` (main.cpp lines 577-598) combined
with `SimApp::offscreenRender` (lines 1026-1044): resolve the render pose
with `eyePoseStep`; if the right-hand trigger is pressed, substitute the
hand position (live when `getTrackingState() == 0`, else the stored
`lastRightHand`, which is refreshed only on substituted LIVE frames) with
`getDefaultIOD(curEyeIdx)` added to its x coordinate, otherwise use the
resolved render-pose position; hand `eyePoses[eye]` and its position to
`renderScene` unchanged.  Returns the updated eye state, the updated
`lastRightHand` position, and the pass arguments. -/
def drawEye (s : EyeState) (lastRightHand : OvrVec3) (livePose : OvrPose)
    (trackingState : ℕ) (rightHandTriggerPressed : Bool)
    (rightHandPos : OvrVec3) (defaultOffset : ℚ) :
    (EyeState × OvrVec3) × DrawEyeCalls :=
  let (s', renderEye) := eyePoseStep s livePose trackingState
  if rightHandTriggerPressed then
    let base := if trackingState = 0 then rightHandPos else lastRightHand
    let lastRightHand' := if trackingState = 0 then rightHandPos else lastRightHand
    ((s', lastRightHand'),
      ⟨⟨base.px + defaultOffset, base.py, base.pz⟩, livePose, livePose.Position⟩)
  else
    ((s', lastRightHand), ⟨renderEye.Position, livePose, livePose.Position⟩)

/-- C4: for every eye state, stored hand pose, tracking mode, substitution
flag and tracked poses, the composite pass (`renderScene`) receives the
true tracked eye pose `eyePoses[eye]` and its position, never the frozen
or substituted pose used for the offscreen pass. -/
theorem drawEye_composite_uses_true_pose (s : EyeState) (lastRightHand : OvrVec3)
    (livePose : OvrPose) (trackingState : ℕ) (rightHandTriggerPressed : Bool)
    (rightHandPos : OvrVec3) (defaultOffset : ℚ) :
    (drawEye s lastRightHand livePose trackingState rightHandTriggerPressed
        rightHandPos defaultOffset).2.compositePose = livePose ∧
    (drawEye s lastRightHand livePose trackingState rightHandTriggerPressed
        rightHandPos defaultOffset).2.compositeEyePos = livePose.Position := by
  unfold drawEye
  by_cases ht : rightHandTriggerPressed = true <;> simp [ht]

/-- The clamped, IOD-adjusted lateral offset for eye 0 computed by
`RiftApp::draw` (main.cpp line 555) and passed to `ovr_GetEyePoses`. -/
def renderEyeOffsetX0 (defaultOffset0 iod : ℚ) : ℚ :=
  min (max (defaultOffset0 - iod / 2) (-(3 / 10))) 0

/-- The clamped, IOD-adjusted lateral offset for eye 1 computed by
`RiftApp::draw` (main.cpp line 556) and passed to `ovr_GetEyePoses`. -/
def renderEyeOffsetX1 (defaultOffset1 iod : ℚ) : ℚ :=
  min (max (defaultOffset1 + iod / 2) 0) (3 / 10)

/-- C8 (amended): on every frame on which substitution is active
(right-hand trigger pressed), the eye position handed to the offscreen
pass is the secondary (hand) tracked position — the live hand position
when tracking is LIVE, else the stored `lastRightHand`, which is refreshed
exactly on substituted LIVE frames — with the eye's default HmdToEye
lateral offset (`getDefaultIOD`, not the clamped IOD-adjusted
`renderEyeOffset`) added to its x coordinate. -/
theorem drawEye_substitution_uses_default_offset (s : EyeState)
    (lastRightHand : OvrVec3) (livePose : OvrPose) (trackingState : ℕ)
    (rightHandTriggerPressed : Bool) (rightHandPos : OvrVec3) (defaultOffset : ℚ)
    (ht : rightHandTriggerPressed = true) :
    (drawEye s lastRightHand livePose trackingState rightHandTriggerPressed
        rightHandPos defaultOffset).2.offscreenEyePos =
      (let base := if trackingState = 0 then rightHandPos else lastRightHand
       ⟨base.px + defaultOffset, base.py, base.pz⟩) ∧
    (drawEye s lastRightHand livePose trackingState rightHandTriggerPressed
        rightHandPos defaultOffset).1.2 =
      (if trackingState = 0 then rightHandPos else lastRightHand) := by
  unfold drawEye
  by_cases hm : trackingState = 0 <;> simp [ht, hm]

/-- Witness for C8 (amended) at a concrete substituted FROZEN frame. -/
theorem drawEye_substitution_uses_default_offset_witness :
    (drawEye ⟨true, ⟨⟨0, 0, 0, 1⟩, ⟨1, 2, 3⟩⟩⟩ ⟨10, 20, 30⟩ ⟨⟨0, 0, 0, 1⟩, ⟨1, 2, 3⟩⟩ 1
        true ⟨4, 5, 6⟩ (3 / 100)).2.offscreenEyePos =
      ⟨10 + 3 / 100, 20, 30⟩ ∧
    (drawEye ⟨true, ⟨⟨0, 0, 0, 1⟩, ⟨1, 2, 3⟩⟩⟩ ⟨10, 20, 30⟩ ⟨⟨0, 0, 0, 1⟩, ⟨1, 2, 3⟩⟩ 1
        true ⟨4, 5, 6⟩ (3 / 100)).1.2 = ⟨10, 20, 30⟩ := by
  have h := drawEye_substitution_uses_default_offset ⟨true, ⟨⟨0, 0, 0, 1⟩, ⟨1, 2, 3⟩⟩⟩
    ⟨10, 20, 30⟩ ⟨⟨0, 0, 0, 1⟩, ⟨1, 2, 3⟩⟩ 1 true ⟨4, 5, 6⟩ (3 / 100) rfl
  exact ⟨h.1, h.2⟩

/-- C8 counterexample to the claim as stated: with the HMD-provided default
lateral offset 1/2 for eye 1, IOD 0, hand at the origin and substitution
active on a LIVE frame, the offscreen pass receives x = 1/2 (the default
offset applied), not x = 3/10 (the clamped, IOD-adjusted `renderEyeOffset`
the claim names); so the applied offset is not the clamped IOD-adjusted
per-eye offset. -/
theorem drawEye_substitution_offset_counterexample :
    (drawEye ⟨true, ⟨⟨0, 0, 0, 1⟩, ⟨1, 2, 3⟩⟩⟩ ⟨0, 0, 0⟩ ⟨⟨0, 0, 0, 1⟩, ⟨1, 2, 3⟩⟩ 0
        true ⟨0, 0, 0⟩ (1 / 2)).2.offscreenEyePos = ⟨0 + 1 / 2, 0, 0⟩ ∧
    renderEyeOffsetX1 (1 / 2) 0 = 3 / 10 ∧
    (drawEye ⟨true, ⟨⟨0, 0, 0, 1⟩, ⟨1, 2, 3⟩⟩⟩ ⟨0, 0, 0⟩ ⟨⟨0, 0, 0, 1⟩, ⟨1, 2, 3⟩⟩ 0
        true ⟨0, 0, 0⟩ (1 / 2)).2.offscreenEyePos ≠
      ⟨0 + renderEyeOffsetX1 (1 / 2) 0, 0, 0⟩ := by
  refine ⟨?_, ?_, ?_⟩
  · norm_num [drawEye, eyePoseStep]
  · norm_num [renderEyeOffsetX1, max_def, min_def]
  · norm_num [drawEye, eyePoseStep, renderEyeOffsetX1, max_def, min_def]

/-! ## Occlusion-challenge mode (SimScene::preRender, main.cpp lines
803-869, and SimApp::update, lines 995-998) -/

/-- The occlusion-challenge state of `SimScene`: the `buttonX` toggle, the
`randomGened` latch and the selected `random_num`. -/
structure OccState where
  buttonX : ℕ
  randomGened : Bool
  random_num : ℕ
deriving DecidableEq, Repr

/-- The X-button release handling of `SimApp::update` (main.cpp line 997):
toggle `buttonX` modulo 2 and clear the `randomGened` latch. -/
def toggleButtonX (s : OccState) : OccState :=
  { s with buttonX := (s.buttonX + 1) % 2, randomGened := false }

/-- The re-roll at the top of `SimScene::preRender` (main.cpp lines
803-806): when the mode is on and no number has been generated since the
last toggle, draw a fresh `rand() % 6` and set the latch.  The fresh random
value is passed in as an input. -/
def occPreRenderStep (s : OccState) (fresh : ℕ) : OccState :=
  if s.buttonX = 1 ∧ s.randomGened = false then
    { s with random_num := fresh % 6, randomGened := true }
  else s

/-- Whether `SimScene::preRender` issues the skybox and cube draws for face
`faceIdx` (0 = left, 1 = right, 2 = bottom) of eye `curEyeIdx` (main.cpp
lines 811, 835, 864): drawn unless the mode is on and
`curEyeIdx * 3 + faceIdx` equals `random_num`. -/
def faceDrawn (s : OccState) (curEyeIdx faceIdx : ℕ) : Bool :=
  s.buttonX = 0 ∨ curEyeIdx * 3 + faceIdx ≠ s.random_num

/-- C5: (a) when the occlusion-challenge mode is on (`buttonX = 1`) and the
stored `random_num` is in range (as every `rand() % 6` is), exactly one of
the six eye/face combinations — indexed by `curEyeIdx * 3 + faceIdx` — has
its skybox and cube draws skipped; (b) when the mode is off
(`buttonX = 0`), all six combinations are drawn; (c) each time the mode is
toggled on, the first `preRender` re-rolls `random_num` to the fresh
random draw modulo 6. -/
theorem occlusion_challenge_selection (s : OccState)
    (hon : s.buttonX = 1) (hr : s.random_num < 6)
    (soff : OccState) (hoff : soff.buttonX = 0)
    (stoggle : OccState) (htoggle : stoggle.buttonX = 0) (fresh : ℕ) :
    (Finset.filter
        (fun k : Fin 6 => faceDrawn s ((k : ℕ) / 3) ((k : ℕ) % 3) = false)
        Finset.univ).card = 1 ∧
    (∀ curEyeIdx faceIdx : ℕ, faceDrawn soff curEyeIdx faceIdx = true) ∧
    (occPreRenderStep (toggleButtonX stoggle) fresh).random_num = fresh % 6 := by
  refine ⟨?_, ?_, ?_⟩
  · have hcond : ∀ k : Fin 6,
        (faceDrawn s ((k : ℕ) / 3) ((k : ℕ) % 3) = false) ↔ (k : ℕ) = s.random_num := by
      intro k
      unfold faceDrawn
      have hk3 : (k : ℕ) / 3 * 3 + (k : ℕ) % 3 = (k : ℕ) := by omega
      rw [hk3]
      simp [hon]
    have : (Finset.filter
        (fun k : Fin 6 => faceDrawn s ((k : ℕ) / 3) ((k : ℕ) % 3) = false)
        Finset.univ) = {⟨s.random_num, hr⟩} := by
      ext k
      simp only [Finset.mem_filter, Finset.mem_univ, true_and, Finset.mem_singleton,
        hcond k]
      constructor
      · intro hk
        exact Fin.ext hk
      · intro hk
        rw [hk]
    rw [this]
    exact Finset.card_singleton _
  · intro curEyeIdx faceIdx
    unfold faceDrawn
    simp [hoff]
  · unfold occPreRenderStep toggleButtonX
    simp [htoggle]

/-- Witness for C5: mode on with `random_num = 4`, mode off, and a toggle
from off followed by a re-roll with fresh value 17. -/
theorem occlusion_challenge_selection_witness :
    (Finset.filter
        (fun k : Fin 6 =>
          faceDrawn ⟨1, true, 4⟩ ((k : ℕ) / 3) ((k : ℕ) % 3) = false)
        Finset.univ).card = 1 ∧
    (∀ curEyeIdx faceIdx : ℕ, faceDrawn ⟨0, true, 4⟩ curEyeIdx faceIdx = true) ∧
    (occPreRenderStep (toggleButtonX ⟨0, true, 2⟩) 17).random_num = 17 % 6 :=
  occlusion_challenge_selection ⟨1, true, 4⟩ rfl (by norm_num)
    ⟨0, true, 4⟩ rfl ⟨0, true, 2⟩ rfl 17

/-! ## Graphics-call ordering of one eye's frame (RiftApp::draw lines
577-610, SimScene::preRender lines 792-884, SimScene::render lines
912-939) -/

/-- The three face render targets (the `lFBO`, `rFBO`, `bFBO`
framebuffers of `SimScene`). -/
inductive FaceTarget
  | faceLeft
  | faceRight
  | faceBottom
deriving DecidableEq, Repr

/-- Abstract graphics calls issued by the per-eye frame body, annotated
with the render target they touch. -/
inductive GfxCall
  | bindFace (t : FaceTarget)
  | clearFace (t : FaceTarget)
  | drawSkyboxToFace (t : FaceTarget)
  | drawCubeToFace (t : FaceTarget)
  | updateLine (k : ℕ)
  | bindDefault
  | clearDefault
  | bindEyeFbo
  | drawRiftSkybox
  | drawCave
  | drawLine (k : ℕ)
deriving DecidableEq, Repr

/-- The graphics calls of `SimScene::preRender` (main.cpp lines 792-884) in
source order: for each of the left, right and bottom faces, bind and clear
its render target, then (unless the occlusion challenge skips this
eye/face combination) draw the skybox and the cube into it, then update
that face's debug lines; finally restore the default framebuffer, clear
it, and rebind the eye framebuffer. -/
def preRenderTrace (s : OccState) (curEyeIdx : ℕ) : List GfxCall :=
  [GfxCall.bindFace FaceTarget.faceLeft, GfxCall.clearFace FaceTarget.faceLeft] ++
    (if faceDrawn s curEyeIdx 0 then
      [GfxCall.drawSkyboxToFace FaceTarget.faceLeft,
       GfxCall.drawCubeToFace FaceTarget.faceLeft]
    else []) ++
    [GfxCall.updateLine 1, GfxCall.updateLine 2] ++
  [GfxCall.bindFace FaceTarget.faceRight, GfxCall.clearFace FaceTarget.faceRight] ++
    (if faceDrawn s curEyeIdx 1 then
      [GfxCall.drawSkyboxToFace FaceTarget.faceRight,
       GfxCall.drawCubeToFace FaceTarget.faceRight]
    else []) ++
    [GfxCall.updateLine 3, GfxCall.updateLine 4, GfxCall.updateLine 5,
     GfxCall.updateLine 6] ++
  [GfxCall.bindFace FaceTarget.faceBottom, GfxCall.clearFace FaceTarget.faceBottom] ++
    (if faceDrawn s curEyeIdx 2 then
      [GfxCall.drawSkyboxToFace FaceTarget.faceBottom,
       GfxCall.drawCubeToFace FaceTarget.faceBottom]
    else []) ++
    [GfxCall.updateLine 7] ++
  [GfxCall.bindDefault, GfxCall.clearDefault, GfxCall.bindEyeFbo]

/-- The graphics calls of `SimScene::render` (main.cpp lines 912-939) in
source order: draw the rift skybox, draw the cave geometry sampling the
three face render-target textures, then draw the fourteen debug lines. -/
def renderTrace : List GfxCall :=
  [GfxCall.drawRiftSkybox, GfxCall.drawCave] ++
    (List.range 14).map GfxCall.drawLine

/-- The per-eye sequence of graphics calls of `RiftApp::draw` (main.cpp
lines 577-610): the offscreen pass (`offscreenRender`, going through
`SimScene::preRender`) followed by the composite pass (`renderScene`,
going through `SimScene::render`). -/
def eyeTrace (s : OccState) (curEyeIdx : ℕ) : List GfxCall :=
  preRenderTrace s curEyeIdx ++ renderTrace

/-- Whether a call writes into one of the three face render targets (a
clear or a draw into a face framebuffer). -/
def isFaceWrite : GfxCall → Bool
  | GfxCall.clearFace _ => true
  | GfxCall.drawSkyboxToFace _ => true
  | GfxCall.drawCubeToFace _ => true
  | _ => false

/-- Whether a call is the composite draw that samples the three face
render-target textures (`cave->draw`). -/
def isCaveSample : GfxCall → Bool
  | GfxCall.drawCave => true
  | _ => false

/-- If a predicate fails on every element of the suffix, an index where it
holds lies in the prefix. -/
theorem index_lt_of_suffix_none {α : Type} (p : α → Bool) (r : List α)
    (hr : ∀ c ∈ r, p c = false) :
    ∀ (l : List α) (i : ℕ) (hi : i < (l ++ r).length),
      p ((l ++ r).get ⟨i, hi⟩) = true → i < l.length := by
  intro l
  induction l with
  | nil =>
    intro i hi hp
    have hmem : ([] ++ r).get ⟨i, hi⟩ ∈ r := List.get_mem _ _ _
    rw [hr _ hmem] at hp
    simp at hp
  | cons a l ih =>
    intro i hi hp
    cases i with
    | zero => simp
    | succ i =>
      have hi' : i < (l ++ r).length := Nat.lt_of_succ_lt_succ hi
      have := ih i hi' hp
      simpa using Nat.succ_lt_succ this

/-- If a predicate fails on every element of the prefix, an index where it
holds lies in the suffix. -/
theorem prefix_length_le_index {α : Type} (p : α → Bool) :
    ∀ (l : List α), (∀ c ∈ l, p c = false) →
      ∀ (r : List α) (i : ℕ) (hi : i < (l ++ r).length),
        p ((l ++ r).get ⟨i, hi⟩) = true → l.length ≤ i := by
  intro l
  induction l with
  | nil =>
    intro _ r i hi _
    simp
  | cons a l ih =>
    intro hl r i hi hp
    cases i with
    | zero =>
      have h0 : ((a :: l) ++ r).get ⟨0, hi⟩ = a := rfl
      rw [h0, hl a (List.mem_cons_self a l)] at hp
      simp at hp
    | succ i =>
      have hi' : i < (l ++ r).length := Nat.lt_of_succ_lt_succ hi
      have := ih (fun c hc => hl c (List.mem_cons_of_mem a hc)) r i hi' hp
      simpa using Nat.succ_le_succ this

/-- C6: for every occlusion state and eye, every clear or draw call writing
into one of the three face render targets occurs strictly before the
composite pass's cave draw (which samples those three render-target
textures) in the per-eye sequence of graphics calls. -/
theorem face_writes_before_cave_sample (s : OccState) (curEyeIdx : ℕ)
    (i j : ℕ) (hi : i < (eyeTrace s curEyeIdx).length)
    (hj : j < (eyeTrace s curEyeIdx).length)
    (hwi : isFaceWrite ((eyeTrace s curEyeIdx).get ⟨i, hi⟩) = true)
    (hsj : isCaveSample ((eyeTrace s curEyeIdx).get ⟨j, hj⟩) = true) :
    i < j := by
  have hRn : ∀ c ∈ renderTrace, isFaceWrite c = false := by decide
  have hPn : ∀ c ∈ preRenderTrace s curEyeIdx, isCaveSample c = false := by
    unfold preRenderTrace
    by_cases h0 : faceDrawn s curEyeIdx 0 = true <;>
      by_cases h1 : faceDrawn s curEyeIdx 1 = true <;>
        by_cases h2 : faceDrawn s curEyeIdx 2 = true <;>
          simp only [h0, h1, h2, if_true, if_false, Bool.not_eq_true] at * <;>
            decide
  have h1 : i < (preRenderTrace s curEyeIdx).length :=
    index_lt_of_suffix_none isFaceWrite renderTrace hRn (preRenderTrace s curEyeIdx) i hi hwi
  have h2 : (preRenderTrace s curEyeIdx).length ≤ j :=
    prefix_length_le_index isCaveSample (preRenderTrace s curEyeIdx) hPn renderTrace j hj hsj
  omega

/-- Witness for C6: the clear of the left face target (index 1) precedes
the cave draw (index 23) with the occlusion mode off. -/
theorem face_writes_before_cave_sample_witness : (1 : ℕ) < 23 :=
  face_writes_before_cave_sample ⟨0, false, 0⟩ 0 1 23 (by decide) (by decide)
    (by decide) (by decide)

/-! ## `Cave::loadPPM` (Minimal/Cave.cpp, lines 192-243)

The file-system interaction of `fopen`/`fgets`/`sscanf` is abstracted:
the input is `none` when `fopen` fails, and otherwise the header values
(`atoi` of the parsed width and height strings) together with the payload
bytes that follow the header.  `fread(rawData, width*height*3, 1, fp)`
returns 1 exactly when it reads one complete block of `width*height*3 > 0`
bytes; otherwise `read != 1` and the error path runs. -/

/-- An opened PPM file after header parsing: header width and height and
the remaining payload bytes. -/
structure PPMFile where
  width : ℕ
  height : ℕ
  bytes : List ℕ
deriving DecidableEq, Repr

/-- The observable outcome of `Cave::loadPPM`: the returned pixel data (or
`none` for the null pointer), the values left in the by-reference `width`
and `height` arguments, and the error lines written to `std::cerr`. -/
structure PPMResult where
  data : Option (List ℕ)
  width : ℕ
  height : ℕ
  log : List String
deriving DecidableEq, Repr

/-- Embedding of `Cave::loadPPM` (Cave.cpp lines 192-243): if the file
cannot be opened, log the locate error, zero the width and height and
return the null pointer; if `fread` fails to read one full
`width*height*3`-byte block, log the incomplete-data error, zero the width
and height and return the null pointer; otherwise return the pixel
block. -/
def loadPPM (file : Option PPMFile) : PPMResult :=
  match file with
  | none =>
    { data := none, width := 0, height := 0,
      log := ["error reading ppm file, could not locate"] }
  | some f =>
    let need := f.width * f.height * 3
    if need = 0 ∨ f.bytes.length < need then
      { data := none, width := 0, height := 0,
        log := ["error parsing ppm file, incomplete data"] }
    else
      { data := some (f.bytes.take need), width := f.width, height := f.height,
        log := [] }

/-- C9: `loadPPM` degrades instead of aborting: an unopenable file yields a
logged locate error, zeroed dimensions and a null result, and a file whose
pixel payload is shorter than the `width*height*3` bytes its header
announces yields a logged parse error, zeroed dimensions and a null
result. -/
theorem loadPPM_degrades_on_errors :
    loadPPM none =
      { data := none, width := 0, height := 0,
        log := ["error reading ppm file, could not locate"] } ∧
    ∀ f : PPMFile, f.bytes.length < f.width * f.height * 3 →
      loadPPM (some f) =
        { data := none, width := 0, height := 0,
          log := ["error parsing ppm file, incomplete data"] } := by
  constructor
  · rfl
  · intro f hf
    show (let need := f.width * f.height * 3;
      if need = 0 ∨ f.bytes.length < need then
        { data := none, width := 0, height := 0,
          log := ["error parsing ppm file, incomplete data"] }
      else
        ({ data := some (f.bytes.take need), width := f.width,
           height := f.height, log := [] } : PPMResult)) =
      { data := none, width := 0, height := 0,
        log := ["error parsing ppm file, incomplete data"] }
    rw [if_pos (Or.inr hf)]

/-- Witness for C9: the missing-file case and a file announcing a 2x2 image
with only 5 payload bytes. -/
theorem loadPPM_degrades_on_errors_witness :
    loadPPM none =
      { data := none, width := 0, height := 0,
        log := ["error reading ppm file, could not locate"] } ∧
    loadPPM (some ⟨2, 2, [9, 9, 9, 9, 9]⟩) =
      { data := none, width := 0, height := 0,
        log := ["error parsing ppm file, incomplete data"] } :=
  ⟨loadPPM_degrades_on_errors.1,
    loadPPM_degrades_on_errors.2 ⟨2, 2, [9, 9, 9, 9, 9]⟩ (by norm_num)⟩

end CaveSim
